import Mathlib

/-!
Shallow embedding of the memcached daemon's bucket lifecycle, connection
state machine and buffer loan/return protocol, together with proofs of the
specification's claims about them.

The definitions mirror `src/daemon/memcached.cc` and
`src/daemon/connections.cc`.  Mutex acquire/release pairs in the source
guard short critical sections; the embedding is sequential, so they are
dropped.  Machine pointers are represented by `Option Nat` identities
(`Option.none` = `NULL`), C `int` counters by `Int`, and observable side
effects (engine `destroy`, condition-variable signals, event registration)
by explicit event lists.
-/

namespace Memcached

/-- Engine error codes (`ENGINE_ERROR_CODE`), restricted to the codes the
bucket-management paths use. -/
inductive EngineErrorCode where
  | success
  | key_enoent
  | key_eexists
  | e2big
  | enomem
  | not_stored
  | ewouldblock
  | disconnect
deriving DecidableEq, Repr

/-- `BucketState`: lifecycle states of a bucket slot. -/
inductive BucketState where
  | none
  | creating
  | initializing
  | ready
  | destroying
deriving DecidableEq, Repr

/-- `BucketType`: which engine module backs a bucket. -/
inductive BucketType where
  | unknown
  | no_bucket
  | memcached
  | couchstore
  | ep
deriving DecidableEq, Repr

/-- One slot of the `all_buckets` array.  `engine` is the identity of the
engine instance owned by the slot (`Option.none` = `NULL`); `topkeys`
records whether the slot's `TopKeys` allocation is live. -/
structure Bucket where
  state : BucketState := BucketState.none
  name : String := ""
  clients : Int := 0
  engine : Option Nat := Option.none
  btype : BucketType := BucketType.unknown
  topkeys : Bool := false
deriving DecidableEq, Repr

instance : Inhabited Bucket := ⟨{}⟩

/-- The bucket table: the fixed-size `all_buckets` array
(`settings.max_buckets` entries; slot 0 hosts the "no bucket"). -/
def BucketTable := List Bucket

instance : Inhabited BucketTable := ⟨([] : List Bucket)⟩

/-- The bucket-related part of a `Connection`: its bucket index
(`getBucketIndex`, −1 while unset) and its copy of the bucket's engine
pointer (`getBucketEngine`). -/
structure ConnAssoc where
  bucketIndex : Int := -1
  engine : Option Nat := Option.none
deriving DecidableEq, Repr

/-- Observable effects of the associate/disassociate functions: client
counter changes and the drain condition-variable signal. -/
inductive AssocEvent where
  | decrClients (i : Nat)
  | signalCond (i : Nat)
  | incrClients (i : Nat)
deriving DecidableEq, Repr

/-- `disassociate_bucket`: decrement the current bucket's client count,
rebind the connection to index 0 with a `NULL` engine pointer, and signal
the bucket's condition variable when the count reaches zero while the
bucket is `Destroying`. -/
def disassociate_bucket (c : ConnAssoc) (table : List Bucket) :
    ConnAssoc × List Bucket × List AssocEvent :=
  let i := c.bucketIndex.toNat
  let b := table.getD i default
  let b' := { b with clients := b.clients - 1 }
  ({ c with bucketIndex := 0, engine := Option.none },
   table.set i b',
   if b'.clients = 0 ∧ b'.state = BucketState.destroying then
     [AssocEvent.decrClients i, AssocEvent.signalCond i]
   else
     [AssocEvent.decrClients i])

/-- The linear-scan pattern of all bucket loops (`for (ii = 0; ...)` with
`break` at the first hit): index of the first element satisfying `p`. -/
def firstIdx {α : Type} (p : α → Bool) : List α → Option Nat
  | [] => Option.none
  | b :: rest =>
    if p b then Option.some 0 else (firstIdx p rest).map (· + 1)

/-- The scan loop of `associate_bucket`: the first index `ii` with
`1 ≤ ii < max_buckets` whose bucket is `Ready` and carries the requested
name. -/
def scanReadyBucket (name : String) (table : List Bucket) : Option Nat :=
  match firstIdx
      (fun b => b.state = BucketState.ready ∧ b.name = name)
      (table.drop 1) with
  | Option.some j => Option.some (j + 1)
  | Option.none => Option.none

/-- `associate_bucket`: leave the current bucket, then bind to the first
`Ready` bucket with the requested name (incrementing its client count), or
to the "no bucket" at index 0 when no such bucket exists.  Returns whether
a named bucket was found. -/
def associate_bucket (c : ConnAssoc) (name : String) (table : List Bucket) :
    Bool × ConnAssoc × List Bucket × List AssocEvent :=
  let d := disassociate_bucket c table
  let c1 := d.1
  let table1 := d.2.1
  let ev1 := d.2.2
  match scanReadyBucket name table1 with
  | Option.some i =>
      let b := table1.getD i default
      (true, { c1 with bucketIndex := (i : Int), engine := b.engine },
       table1.set i { b with clients := b.clients + 1 },
       ev1 ++ [AssocEvent.incrClients i])
  | Option.none =>
      let b0 := table1.getD 0 default
      (false, { c1 with bucketIndex := 0, engine := b0.engine },
       table1.set 0 { b0 with clients := b0.clients + 1 },
       ev1 ++ [AssocEvent.incrClients 0])

/-- `associate_initial_bucket`: bind a fresh connection to the "no bucket"
slot (incrementing its client count), then try to associate with the
bucket named `"default"`. -/
def associate_initial_bucket (c : ConnAssoc) (table : List Bucket) :
    Bool × ConnAssoc × List Bucket × List AssocEvent :=
  let b0 := table.getD 0 default
  let table1 := table.set 0 { b0 with clients := b0.clients + 1 }
  let c1 : ConnAssoc := { c with bucketIndex := 0, engine := b0.engine }
  let r := associate_bucket c1 "default" table1
  (r.1, r.2.1, r.2.2.1, AssocEvent.incrClients 0 :: r.2.2.2)

/-- Environment for `do_create_bucket`: the out-of-band outcomes of the
`TopKeys` allocation, `new_engine_instance`, and the engine's
`initialize` call, and the identity of the freshly constructed engine. -/
structure CreateEnv where
  topkeysAllocOk : Bool
  constructOk : Bool
  initResult : EngineErrorCode
  newEngineId : Nat
deriving DecidableEq, Repr

/-- Result of `do_create_bucket`: the returned error code, the bucket
table afterwards, and how many times the new engine's `destroy` was
invoked. -/
structure CreateResult where
  ret : EngineErrorCode
  table : List Bucket
  destroyCalls : Nat
deriving DecidableEq, Repr

/-- The scan loop of `do_create_bucket`: whether some slot already carries
the requested name. -/
def bucketNameFound (name : String) (table : List Bucket) : Bool :=
  table.any (fun b => b.name = name)

/-- The scan loop of `do_create_bucket`: the first slot whose state is
`None`. -/
def firstFreeIdx (table : List Bucket) : Option Nat :=
  firstIdx (fun b => b.state = BucketState.none) table

/-- `do_create_bucket`: scan for a name clash (`ENGINE_KEY_EEXISTS`) and a
free slot (`ENGINE_E2BIG` if none); reserve the slot (`Creating`, name
recorded, `TopKeys` allocated — `ENGINE_ENOMEM` on `bad_alloc`); then,
outside the table lock, construct the engine, move to `Initializing`, run
`initialize`, and on success mark the slot `Ready`.  An `initialize`
failure destroys the engine and reverts the slot to `None` with its name
cleared (`ENGINE_NOT_STORED`); a construction failure reverts the slot but
leaves `ret` untouched (the source's `@todo` about the error code). -/
def do_create_bucket (bucket_name : String) (btype : BucketType)
    (env : CreateEnv) (table : List Bucket) : CreateResult :=
  if bucketNameFound bucket_name table then
    ⟨EngineErrorCode.key_eexists, table, 0⟩
  else
    match firstFreeIdx table with
    | Option.none => ⟨EngineErrorCode.e2big, table, 0⟩
    | Option.some ii =>
      let b0 := table.getD ii default
      let b1 := { b0 with
                  state := BucketState.creating,
                  btype := btype,
                  name := bucket_name,
                  topkeys := env.topkeysAllocOk }
      let table1 := table.set ii b1
      if env.topkeysAllocOk then
        if env.constructOk then
          let b2 := { b1 with
                      engine := Option.some env.newEngineId,
                      state := BucketState.initializing }
          if env.initResult = EngineErrorCode.success then
            ⟨EngineErrorCode.success,
             (table1.set ii b2).set ii { b2 with state := BucketState.ready },
             0⟩
          else
            ⟨EngineErrorCode.not_stored,
             (table1.set ii b2).set ii
               { b2 with state := BucketState.none, name := "" },
             1⟩
        else
          ⟨EngineErrorCode.success,
           table1.set ii { b1 with state := BucketState.none, name := "" },
           0⟩
      else
        ⟨EngineErrorCode.enomem, table1, 0⟩

/-- Observable steps of `do_delete_bucket`, in execution order. -/
inductive DeleteEvent where
  | markDestroying (i : Nat)
  | disassociateSelf
  | waitDrained (i : Nat)
  | destroyEngine (i : Nat) (force : Bool)
  | resetSlot (i : Nat)
deriving DecidableEq, Repr

/-- Result of `do_delete_bucket`. -/
structure DeleteResult where
  ret : EngineErrorCode
  table : List Bucket
  conn : ConnAssoc
  events : List DeleteEvent
deriving DecidableEq, Repr

/-- The scan loop of `do_delete_bucket`: the first slot carrying the
requested name (the loop breaks at the first match). -/
def findBucketByName (name : String) (table : List Bucket) : Option Nat :=
  firstIdx (fun b => b.name = name) table

/-- `do_delete_bucket`: locate the named bucket (`ENGINE_KEY_ENOENT` when
absent); if it is `Ready`, mark it `Destroying`, otherwise fail with
`ENGINE_KEY_EEXISTS`.  On the success path: disassociate the requesting
connection if it is bound to the doomed bucket, wait (condition-variable
loop, exiting only with `clients = 0`) for the remaining clients to
disconnect, invoke the engine's `destroy` once, reset the per-thread
statistics, and clear the slot back to `None` with an empty name. -/
def do_delete_bucket (c : ConnAssoc) (bucket_name : String) (force : Bool)
    (table : List Bucket) : DeleteResult :=
  match findBucketByName bucket_name table with
  | Option.none => ⟨EngineErrorCode.key_enoent, table, c, []⟩
  | Option.some i =>
    let b := table.getD i default
    if b.state = BucketState.ready then
      let table1 := table.set i { b with state := BucketState.destroying }
      let step2 :=
        if c.bucketIndex = (i : Int) then
          let d := disassociate_bucket c table1
          (d.1, d.2.1, [DeleteEvent.disassociateSelf])
        else (c, table1, ([] : List DeleteEvent))
      let c2 := step2.1
      let table2 := step2.2.1
      let bDrained := { table2.getD i default with clients := 0 }
      let table3 := table2.set i bDrained
      let table4 := table3.set i
        { bDrained with
          state := BucketState.none,
          engine := Option.none,
          name := "",
          topkeys := false }
      ⟨EngineErrorCode.success, table4, c2,
       DeleteEvent.markDestroying i :: step2.2.2 ++
         [DeleteEvent.waitDrained i, DeleteEvent.destroyEngine i force,
          DeleteEvent.resetSlot i]⟩
    else
      ⟨EngineErrorCode.key_eexists, table, c, []⟩

/-! ## Network buffers and the loan/return protocol
(`src/daemon/connections.cc`) -/

/-- `struct net_buf`: `buf` is the buffer's identity (`Option.none` =
`NULL`), `curr` the read cursor as an offset from the buffer start
(`curr = 0` models `curr == buf`), `bytes` the unconsumed byte count. -/
structure NetBuf where
  buf : Option Nat := Option.none
  size : Nat := 0
  curr : Nat := 0
  bytes : Nat := 0
deriving DecidableEq, Repr

instance : Inhabited NetBuf := ⟨{}⟩

/-- `DATA_BUFFER_SIZE`: capacity of a freshly allocated network buffer.
The constant's definition lives in a header outside the extracted sources;
its exact value does not affect any claim. -/
def DATA_BUFFER_SIZE : Nat := 2048

/-- Result of a buffer loan attempt (`enum class BufferLoan`). -/
inductive BufferLoan where
  | Existing
  | Loaned
  | Allocated
deriving DecidableEq, Repr

/-- Outcome of `conn_loan_single_buffer`: the loan verdict, both buffers
afterwards, and whether the connection was transitioned to `conn_closing`
(allocation failure). -/
structure LoanResult where
  res : BufferLoan
  threadBuf : NetBuf
  connBuf : NetBuf
  closed : Bool
deriving DecidableEq, Repr

/-- `conn_loan_single_buffer`: keep an already-populated connection buffer
(`Existing`); otherwise transfer the thread's spare to the connection
(`Loaned`, clearing the thread's `buf`/`size`); otherwise allocate a fresh
buffer (`Allocated`), and on allocation failure close the connection.
`allocOk`/`newId` stand for the `malloc` outcome and the new buffer's
identity. -/
def conn_loan_single_buffer (allocOk : Bool) (newId : Nat)
    (thread_buf conn_buf : NetBuf) : LoanResult :=
  if conn_buf.buf ≠ Option.none then
    ⟨BufferLoan.Existing, thread_buf, conn_buf, false⟩
  else if thread_buf.buf ≠ Option.none then
    ⟨BufferLoan.Loaned, { thread_buf with buf := Option.none, size := 0 },
     thread_buf, false⟩
  else if allocOk then
    ⟨BufferLoan.Allocated, thread_buf,
     { buf := Option.some newId, size := DATA_BUFFER_SIZE, curr := 0,
       bytes := 0 },
     false⟩
  else
    ⟨BufferLoan.Existing, thread_buf, conn_buf, true⟩

/-- Outcome of `conn_return_single_buffer`: both buffers afterwards and
the identities freed. -/
structure ReturnResult where
  threadBuf : NetBuf
  connBuf : NetBuf
  freed : List Nat
deriving DecidableEq, Repr

/-- How many of the two buffer slots (`thread_buf`, `conn_buf`) currently
hold buffer identity `b`: the ownership count of `b`. -/
def ownsCount (thread_buf conn_buf : NetBuf) (b : Nat) : Nat :=
  (if thread_buf.buf = Option.some b then 1 else 0) +
    (if conn_buf.buf = Option.some b then 1 else 0)

/-- `conn_return_single_buffer`: a held buffer that is fully drained
(`curr == buf` and `bytes == 0`) is given back to the thread's empty spare
slot, or freed when that slot is occupied; either way the connection's
handle is cleared.  A buffer with unconsumed data stays with the
connection. -/
def conn_return_single_buffer (thread_buf conn_buf : NetBuf) :
    ReturnResult :=
  match conn_buf.buf with
  | Option.none => ⟨thread_buf, conn_buf, []⟩
  | Option.some id =>
    if conn_buf.curr = 0 ∧ conn_buf.bytes = 0 then
      if thread_buf.buf = Option.none then
        ⟨conn_buf, { conn_buf with buf := Option.none, curr := 0, size := 0 },
         []⟩
      else
        ⟨thread_buf,
         { conn_buf with buf := Option.none, curr := 0, size := 0 }, [id]⟩
    else
      ⟨thread_buf, conn_buf, []⟩

/-! ## The connection state machine (`src/daemon/memcached.cc`) -/

/-- Connection states, named after their `STATE_FUNC`s. -/
inductive ConnState where
  | conn_listening
  | conn_waiting
  | conn_read
  | conn_parse_cmd
  | conn_new_cmd
  | conn_nread
  | conn_write
  | conn_mwrite
  | conn_ship_log
  | conn_closing
  | conn_pending_close
  | conn_immediate_close
  | conn_destroyed
deriving DecidableEq, Repr

/-- Libevent registration flags (`EV_READ`, `EV_WRITE`, `EV_PERSIST`). -/
structure EventFlags where
  evRead : Bool := false
  evWrite : Bool := false
  evPersist : Bool := false
deriving DecidableEq, Repr

/-- The worker thread's buffer slots (`LIBEVENT_THREAD::read/write`). -/
structure LibeventThread where
  read : NetBuf := {}
  write : NetBuf := {}
deriving DecidableEq, Repr

/-- The fields of `class Connection` the claims touch.  `thread` is the
owning worker thread (`Option.none` after `setThread(nullptr)`); `item` the
engine-allocated item for the in-flight command; `tapIterator`/`dcp` the
streaming-mode markers; `regFlags` the last event-interest registration. -/
structure Conn where
  state : ConnState := ConnState.conn_waiting
  refcount : Nat := 1
  ewouldblock : Bool := false
  socketClosed : Bool := false
  eventRegistered : Bool := true
  regFlags : EventFlags := {}
  numEvents : Int := 0
  maxReqsPerEvent : Int := 20
  assoc : ConnAssoc := {}
  read : NetBuf := {}
  write : NetBuf := {}
  thread : Option LibeventThread := Option.some {}
  tapIterator : Option Nat := Option.none
  dcp : Bool := false
  stdStream : Bool := false
  item : Option Nat := Option.none
  admin : Bool := false
  engineStorage : Option Nat := Option.none
  cmd : Int := -1
  start : Nat := 0
deriving DecidableEq, Repr

/-- `Connection::isTAP()`: a TAP iterator is installed. -/
def Conn.isTAP (c : Conn) : Bool := c.tapIterator.isSome

/-- `Connection::isDCP()`. -/
def Conn.isDCP (c : Conn) : Bool := c.dcp

/-- Modelled from the spec: `Connection::havePendingInputData` (the
`Connection` class body is outside the extracted sources) — "more data
already sits in the buffer": unconsumed bytes remain in the read buffer. -/
def Conn.havePendingInputData (c : Conn) : Bool := c.read.bytes > 0

/-- Modelled from the spec: `Connection::decrementNumEvents` (the
`Connection` class body is outside the extracted sources) — the
requests-per-event budget "decrements", and with the call sites'
`decrementNumEvents() >= 0` test a budget of K set at event entry yields
"exactly K requests before yielding" (§8), which forces the decremented
value to be returned. -/
def Conn.decrementNumEvents (c : Conn) : Int × Conn :=
  (c.numEvents - 1, { c with numEvents := c.numEvents - 1 })

/-- Environment for a pair of buffer loans: `malloc` outcomes and fresh
buffer identities. -/
structure LoanEnv where
  readAllocOk : Bool := true
  writeAllocOk : Bool := true
  newReadId : Nat := 0
  newWriteId : Nat := 0
deriving DecidableEq, Repr

/-- `conn_loan_buffers`: loan the read buffer, then the write buffer, from
the owning thread's slots (the per-thread loan statistics counters are not
modelled).  An allocation failure inside either loan sets the connection
`conn_closing`. -/
def conn_loan_buffers (env : LoanEnv) (c : Conn) : Conn :=
  match c.thread with
  | Option.none => c
  | Option.some th =>
    let r := conn_loan_single_buffer env.readAllocOk env.newReadId
      th.read c.read
    let c1 := { c with
                read := r.connBuf,
                thread := Option.some { th with read := r.threadBuf },
                state := if r.closed then ConnState.conn_closing else c.state }
    match c1.thread with
    | Option.none => c1
    | Option.some th1 =>
      let w := conn_loan_single_buffer env.writeAllocOk env.newWriteId
        th1.write c1.write
      { c1 with
        write := w.connBuf,
        thread := Option.some { th1 with write := w.threadBuf },
        state := if w.closed then ConnState.conn_closing else c1.state }

/-- `conn_return_buffers`: with no owning thread the buffers must already
be gone; TAP and DCP connections keep their buffers; otherwise both
buffers are returned.  The freed buffer identities are reported. -/
def conn_return_buffers (c : Conn) : Conn × List Nat :=
  match c.thread with
  | Option.none => (c, [])
  | Option.some th =>
    if c.isTAP ∨ c.isDCP then (c, [])
    else
      let r := conn_return_single_buffer th.read c.read
      let w := conn_return_single_buffer th.write c.write
      ({ c with
         read := r.connBuf,
         write := w.connBuf,
         thread := Option.some { read := r.threadBuf, write := w.threadBuf } },
       r.freed ++ w.freed)

/-- `conn_cleanup_engine_allocations`: release the engine item reserved
for the in-flight command (plus any reserved items). -/
def conn_cleanup_engine_allocations (c : Conn) : Conn :=
  { c with item := Option.none }

/-- Result of `conn_cleanup`/`conn_close`: the connection, the worker
thread's buffer slots after the buffers were returned (the thread object
outlives the connection's back-pointer to it), and the freed buffers. -/
structure CleanupResult where
  conn : Conn
  thread : Option LibeventThread
  freed : List Nat
deriving DecidableEq, Repr

/-- `conn_cleanup`: reset both buffers' cursors and byte counts, clear the
TAP iterator and the DCP flag so `conn_return_buffers` really returns the
buffers, return them, then detach from the thread and clear remaining
per-connection state. -/
def conn_cleanup (c : Conn) : CleanupResult :=
  let c1 := { c with
              admin := false,
              read := { c.read with curr := 0, bytes := 0 },
              write := { c.write with curr := 0, bytes := 0 },
              tapIterator := Option.none,
              dcp := false }
  let r := conn_return_buffers c1
  { conn := { r.1 with
              engineStorage := Option.none,
              thread := Option.none,
              start := 0 },
    thread := r.1.thread,
    freed := r.2 }

/-- `conn_close`: final bookkeeping for a connection in
`conn_immediate_close` (drop it from the thread's pending-io list, run
`conn_cleanup`) and mark it `conn_destroyed`. -/
def conn_close (c : Conn) : CleanupResult :=
  let r := conn_cleanup c
  { r with conn := { r.conn with state := ConnState.conn_destroyed } }

/-- `conn_closing`: unregister event interest, close the socket, release
engine allocations, then branch to `conn_pending_close` when outstanding
references or a pending asynchronous operation exist, else to
`conn_immediate_close`. -/
def conn_closing (c : Conn) : Conn × Bool :=
  let c1 := conn_cleanup_engine_allocations
    { c with eventRegistered := false, socketClosed := true }
  if c1.refcount > 1 ∨ c1.ewouldblock then
    ({ c1 with state := ConnState.conn_pending_close }, true)
  else
    ({ c1 with state := ConnState.conn_immediate_close }, true)

/-- `conn_pending_close`: notify the engine (`ON_DISCONNECT`), then remain
parked while the reference count exceeds one; once it has dropped, advance
to `conn_immediate_close`. -/
def conn_pending_close (c : Conn) : Conn × Bool :=
  if c.refcount > 1 then (c, false)
  else ({ c with state := ConnState.conn_immediate_close }, true)

/-- Observable steps of `conn_immediate_close`, in execution order. -/
inductive CloseEvent where
  | decrPortConns
  | disconnectCallbacks
  | disassociateBucket
  | finalBookkeeping
deriving DecidableEq, Repr

/-- Result of `conn_immediate_close`. -/
structure ImmediateCloseResult where
  conn : Conn
  table : List Bucket
  freedBufs : List Nat
  events : List CloseEvent
  assocEvents : List AssocEvent
deriving Repr

/-- `conn_immediate_close`: decrement the listening port's connection
counter, run the `ON_DISCONNECT` callbacks, disassociate from the bucket,
and finish with `conn_close`.  The event list records the order. -/
def conn_immediate_close (c : Conn) (table : List Bucket) :
    ImmediateCloseResult :=
  let d := disassociate_bucket c.assoc table
  let r := conn_close { c with assoc := d.1 }
  { conn := r.conn,
    table := d.2.1,
    freedBufs := r.freed,
    events := [CloseEvent.decrPortConns, CloseEvent.disconnectCallbacks,
               CloseEvent.disassociateBucket, CloseEvent.finalBookkeeping],
    assocEvents := d.2.2 }

/-- `run_event_loop`: on a worker thread, loan buffers, run the state
machinery, return buffers; release the connection object exactly when the
observed state is `conn_destroyed`.  The machinery itself
(`Connection::runStateMachinery`) is passed as a parameter, so the release
condition is established for every behaviour of the state machine. -/
def run_event_loop (machinery : Conn → Conn) (env : LoanEnv)
    (isListenThread : Bool) (c : Conn) : Conn × Bool × List Nat :=
  let c1 := if isListenThread then c else conn_loan_buffers env c
  let c2 := machinery c1
  let step3 := if isListenThread then (c2, ([] : List Nat))
               else conn_return_buffers c2
  (step3.1, step3.1.state = ConnState.conn_destroyed, step3.2)

/-- `is_bucket_dying`: the bucket is being deleted (state ≠ `Ready`) or a
process shutdown was requested; in either case the connection is forced to
`conn_closing`. -/
def is_bucket_dying (shutdown : Bool) (table : List Bucket) (c : Conn) :
    Bool :=
  shutdown ∨
    (table.getD c.assoc.bucketIndex.toNat default).state ≠ BucketState.ready

/-- `reset_cmd_handler`: clear the per-command scratch state (command,
engine item), rewind the read cursor when the buffer is fully consumed,
shrink oversized buffers (capacity management, not modelled), and go to
`conn_parse_cmd` when unconsumed data remains, else to `conn_waiting`. -/
def reset_cmd_handler (c : Conn) : Conn :=
  let c1 := { c with cmd := -1, item := Option.none }
  let c2 := if c1.read.bytes = 0 then
              { c1 with read := { c1.read with curr := 0 } }
            else c1
  if c2.read.bytes > 0 then { c2 with state := ConnState.conn_parse_cmd }
  else { c2 with state := ConnState.conn_waiting }

/-- Result of `conn_new_cmd`: the connection, the state function's return
value (`true` = keep driving the machine), and whether a further request
was admitted (`reset_cmd_handler` ran). -/
structure NewCmdResult where
  conn : Conn
  runAgain : Bool
  processed : Bool
deriving DecidableEq, Repr

/-- `conn_new_cmd`: force `conn_closing` when the bucket is dying;
otherwise decrement the requests-per-event budget and admit the next
command while the decremented budget is still non-negative.  With the
budget exhausted the connection yields; if input data is already buffered
(or the connection is DCP/TAP) a write-readiness registration is used as a
proxy wakeup (`EV_READ` added only for stdin-backed connections), and a
failed registration forces `conn_closing`. -/
def conn_new_cmd (shutdown : Bool) (updateEventOk : Bool)
    (table : List Bucket) (c : Conn) : NewCmdResult :=
  if is_bucket_dying shutdown table c then
    ⟨{ c with state := ConnState.conn_closing }, true, false⟩
  else
    let c1 := { c with start := 0 }
    let d := c1.decrementNumEvents
    if d.1 ≥ 0 then
      ⟨reset_cmd_handler d.2, true, true⟩
    else
      let c2 := d.2
      if c2.havePendingInputData ∨ c2.isDCP ∨ c2.isTAP then
        if updateEventOk then
          ⟨{ c2 with
             eventRegistered := true,
             regFlags := { evRead := c2.stdStream, evWrite := true,
                           evPersist := true } },
           false, false⟩
        else
          ⟨{ c2 with state := ConnState.conn_closing }, true, false⟩
      else
        ⟨c2, false, false⟩

/-- Driver for the fairness claim: a connection whose read buffer always
holds at least one further complete pipelined request.  Each time
`conn_new_cmd` admits a command, the command is dispatched and control
comes back to `conn_new_cmd` (the strictly sequential per-connection
execution of §5); the driver counts the admitted requests and stops when
the connection yields.  `fuel` bounds the recursion. -/
def pipelinedRun (shutdown updateEventOk : Bool) (table : List Bucket) :
    Nat → Conn → Nat × NewCmdResult
  | 0, c => (0, ⟨c, true, false⟩)
  | fuel + 1, c =>
    let r := conn_new_cmd shutdown updateEventOk table c
    if r.processed then
      let rest := pipelinedRun shutdown updateEventOk table fuel
        { r.conn with state := ConnState.conn_new_cmd }
      (rest.1 + 1, rest.2)
    else
      (0, r)

/-! ## The bucket/connection counting system (for the client-count
invariant) -/

/-- Global state: the bucket table and the live connections' bucket
associations. -/
structure System where
  table : List Bucket
  conns : List ConnAssoc
deriving Repr

/-- The association operations the daemon performs, each implemented by
the embedded functions above:
* `openConn` — `conn_new` on a worker: `associate_initial_bucket` for a
  fresh connection;
* `selectBucket j name` — connection `j` runs `associate_bucket`;
* `closeConn j` — connection `j` reaches `conn_immediate_close`:
  `disassociate_bucket`, then the object is released;
* `bareDisassociate j` — `disassociate_bucket` on a connection that stays
  alive (the requesting connection's self-release inside
  `do_delete_bucket`). -/
inductive SysOp where
  | openConn
  | selectBucket (j : Nat) (name : String)
  | closeConn (j : Nat)
  | bareDisassociate (j : Nat)
deriving DecidableEq, Repr

/-- Apply one operation (out-of-range connection choices are no-ops). -/
def applyOp (s : System) : SysOp → System
  | SysOp.openConn =>
      let r := associate_initial_bucket {} s.table
      { table := r.2.2.1, conns := s.conns ++ [r.2.1] }
  | SysOp.selectBucket j name =>
      if h : j < s.conns.length then
        let r := associate_bucket (s.conns.get ⟨j, h⟩) name s.table
        { table := r.2.2.1, conns := s.conns.set j r.2.1 }
      else s
  | SysOp.closeConn j =>
      if h : j < s.conns.length then
        let d := disassociate_bucket (s.conns.get ⟨j, h⟩) s.table
        { table := d.2.1, conns := s.conns.eraseIdx j }
      else s
  | SysOp.bareDisassociate j =>
      if h : j < s.conns.length then
        let d := disassociate_bucket (s.conns.get ⟨j, h⟩) s.table
        { table := d.2.1, conns := s.conns.set j d.1 }
      else s

/-- Apply a sequence of operations, oldest first. -/
def applyOps (s : System) : List SysOp → System
  | [] => s
  | op :: ops => applyOps (applyOp s op) ops

/-- How many connections are currently bound to bucket `i`. -/
def countAt (conns : List ConnAssoc) (i : Nat) : Nat :=
  conns.countP (fun c => c.bucketIndex = (i : Int))

/-- The sum of all buckets' client counts. -/
def sumClients (table : List Bucket) : Int :=
  (table.map (fun b => b.clients)).sum

/-- The counting invariant: every connection is bound to a valid slot,
each bucket's client count equals the number of connections bound to it
(each connection counted exactly once), and consequently the counts sum to
the number of live connections. -/
def SysInv (s : System) : Prop :=
  0 < s.table.length ∧
  (∀ c ∈ s.conns, 0 ≤ c.bucketIndex ∧ c.bucketIndex.toNat < s.table.length) ∧
  (∀ i, i < s.table.length →
    (s.table.getD i default).clients = (countAt s.conns i : Int)) ∧
  sumClients s.table = (s.conns.length : Int)

/-! ## Helper lemmas -/

theorem getD_of_lt {α : Type} (l : List α) (i : Nat) (d : α)
    (h : i < l.length) : l.getD i d = l.get ⟨i, h⟩ := by
  rw [List.getD_eq_getElem?_getD, List.getElem?_eq_getElem h]
  simp

theorem getD_set_self {α : Type} [Inhabited α] (l : List α) (i : Nat)
    (b : α) (h : i < l.length) : (l.set i b).getD i default = b := by
  rw [getD_of_lt _ _ _ (by simpa using h)]
  simp [List.get_eq_getElem, List.getElem_set_self]

theorem firstIdx_sound {α : Type} [Inhabited α] (p : α → Bool)
    (l : List α) (i : Nat) (h : firstIdx p l = Option.some i) :
    i < l.length ∧ p (l.getD i default) = true ∧
      ∀ j, j < i → p (l.getD j default) = false := by
  induction l generalizing i with
  | nil => simp [firstIdx] at h
  | cons b rest ih =>
    by_cases hb : p b
    · simp [firstIdx, hb] at h
      subst h
      refine ⟨by simp, by simpa using hb, ?_⟩
      intro j hj
      omega
    · simp only [firstIdx, hb, if_neg, Bool.false_eq_true, if_false] at h
      match hr : firstIdx p rest with
      | Option.none => rw [hr] at h; simp at h
      | Option.some k =>
        rw [hr] at h
        simp at h
        subst h
        obtain ⟨h1, h2, h3⟩ := ih k hr
        refine ⟨by simpa using h1, by simpa using h2, ?_⟩
        intro j hj
        cases j with
        | zero => simpa using hb
        | succ m => simpa using h3 m (by omega)

theorem firstIdx_complete {α : Type} [Inhabited α] (p : α → Bool)
    (l : List α) (j : Nat) (hj : j < l.length)
    (hp : p (l.getD j default) = true) :
    ∃ i, firstIdx p l = Option.some i ∧ i ≤ j := by
  induction l generalizing j with
  | nil => simp at hj
  | cons b rest ih =>
    by_cases hb : p b
    · exact ⟨0, by simp [firstIdx, hb], by omega⟩
    · cases j with
      | zero => simp at hp; rw [hp] at hb; simp at hb
      | succ k =>
        obtain ⟨i, hi, hik⟩ := ih k (by simpa using hj) (by simpa using hp)
        refine ⟨i + 1, ?_, by omega⟩
        simp [firstIdx, hb, hi]

theorem firstIdx_set_congr {α : Type} [Inhabited α] (p : α → Bool)
    (l : List α) (i : Nat) (b : α)
    (hp : p b = p (l.getD i default)) :
    firstIdx p (l.set i b) = firstIdx p l := by
  induction l generalizing i with
  | nil => simp
  | cons x rest ih =>
    cases i with
    | zero =>
      simp only [List.getD] at hp
      simp only [List.set]
      simp only [firstIdx]
      rw [show p b = p x by simpa using hp]
    | succ k =>
      simp only [List.set]
      simp only [firstIdx]
      rw [ih k (by simpa using hp)]

theorem getD_oob {α : Type} [Inhabited α] (l : List α) (i : Nat)
    (h : l.length ≤ i) : l.getD i default = default := by
  rw [List.getD_eq_getElem?_getD, List.getElem?_eq_none h]
  rfl

theorem drop_one_set {α : Type} (l : List α) (i : Nat) (a : α) :
    (l.set i a).drop 1
      = if i = 0 then l.drop 1 else (l.drop 1).set (i - 1) a := by
  cases l with
  | nil => simp
  | cons x rest =>
    cases i with
    | zero => simp
    | succ k => simp [List.set]

theorem getD_drop_one {α : Type} [Inhabited α] (l : List α) (i : Nat)
    (h : 1 ≤ i) : (l.drop 1).getD (i - 1) default = l.getD i default := by
  cases l with
  | nil => simp
  | cons x rest =>
    cases i with
    | zero => omega
    | succ k => simp [List.getD_cons_succ]

theorem engine_getD_set (t : List Bucket) (jj i : Nat) (b' : Bucket)
    (heng : b'.engine = (t.getD jj default).engine) :
    ((t.set jj b').getD i default).engine
      = (t.getD i default).engine := by
  by_cases hj : jj < t.length
  · by_cases hij : jj = i
    · subst hij
      rw [getD_set_self _ _ _ hj, heng]
    · by_cases hi : i < t.length
      · rw [getD_of_lt _ _ _ (by simpa using hi), getD_of_lt _ _ _ hi]
        simp [List.get_eq_getElem, List.getElem_set_ne hij]
      · rw [getD_oob _ _ (by simpa using (le_of_not_lt hi)),
          getD_oob _ _ (le_of_not_lt hi)]
  · rw [List.set_eq_of_length_le (le_of_not_lt hj)]

theorem scanReadyBucket_set_congr (name : String) (table : List Bucket)
    (i : Nat) (b : Bucket)
    (hst : b.state = (table.getD i default).state)
    (hnm : b.name = (table.getD i default).name) :
    scanReadyBucket name (table.set i b) = scanReadyBucket name table := by
  unfold scanReadyBucket
  rw [drop_one_set]
  split_ifs with h0
  · rfl
  · rw [firstIdx_set_congr]
    rw [getD_drop_one _ _ (by omega)]
    simp [hst, hnm]

theorem countP_set_eq {α : Type} (l : List α) (j : Nat) (a : α)
    (p : α → Bool) (hj : j < l.length) :
    (l.set j a).countP p + (if p (l.get ⟨j, hj⟩) then 1 else 0)
      = l.countP p + (if p a then 1 else 0) := by
  induction l generalizing j with
  | nil => simp at hj
  | cons x rest ih =>
    cases j with
    | zero => simp [List.set, List.countP_cons]; omega
    | succ k =>
      have hk : k < rest.length := by simpa using hj
      simp only [List.set, List.countP_cons, List.get]
      have := ih k hk
      omega

theorem countP_eraseIdx_eq {α : Type} (l : List α) (j : Nat)
    (p : α → Bool) (hj : j < l.length) :
    (l.eraseIdx j).countP p + (if p (l.get ⟨j, hj⟩) then 1 else 0)
      = l.countP p := by
  induction l generalizing j with
  | nil => simp at hj
  | cons x rest ih =>
    cases j with
    | zero => simp [List.eraseIdx, List.countP_cons]
    | succ k =>
      have hk : k < rest.length := by simpa using hj
      simp only [List.eraseIdx, List.countP_cons, List.get]
      have := ih k hk
      omega

theorem sumClients_set (table : List Bucket) (i : Nat) (b : Bucket)
    (hi : i < table.length) :
    sumClients (table.set i b) + (table.get ⟨i, hi⟩).clients
      = sumClients table + b.clients := by
  induction table generalizing i with
  | nil => simp at hi
  | cons x rest ih =>
    cases i with
    | zero => simp [List.set, sumClients]; ring
    | succ k =>
      have hk : k < rest.length := by simpa using hi
      simp only [List.set, sumClients, List.map_cons, List.sum_cons,
        List.get] at ih ⊢
      have := ih k hk
      simp only [sumClients] at this
      omega

/-! ## Claim theorems -/

/-- Claim C1 (code bug evidence): the claim says every create that
reserves a slot and then fails returns a failure status and reverts the
slot to `None` with an empty name.  Evaluated on a two-slot table (slot 0
the "no bucket", slot 1 free): when `new_engine_instance` fails the slot
is reverted but the call returns `ENGINE_SUCCESS` — not a failure status
(the source's `@todo should I change the error code?`): and when the
`TopKeys` allocation throws `bad_alloc` the call returns `ENGINE_ENOMEM`
but the reserved slot is left in `Creating` with its name still set, so
the slot is not reusable. -/
theorem do_create_bucket_failure_divergence :
    (let tbl : List Bucket :=
      [{ state := BucketState.ready, engine := Option.some 100,
         btype := BucketType.no_bucket }, {}]
     let constructFail := do_create_bucket "b1" BucketType.memcached
       { topkeysAllocOk := true, constructOk := false,
         initResult := EngineErrorCode.success, newEngineId := 7 } tbl
     let allocFail := do_create_bucket "b1" BucketType.memcached
       { topkeysAllocOk := false, constructOk := true,
         initResult := EngineErrorCode.success, newEngineId := 7 } tbl
     constructFail.ret = EngineErrorCode.success ∧
     (constructFail.table.getD 1 default).state = BucketState.none ∧
     (constructFail.table.getD 1 default).name = "" ∧
     allocFail.ret = EngineErrorCode.enomem ∧
     (allocFail.table.getD 1 default).state = BucketState.creating ∧
     (allocFail.table.getD 1 default).name = "b1") := by
  decide

/-- Claim C4 (counterexample): the claim says `conn_immediate_close`
first disassociates from the bucket and then runs the disconnect
notification callbacks.  In the code the `ON_DISCONNECT` callbacks run
first: on a concrete connection, the event trace places
`disassociateBucket` strictly after `disconnectCallbacks`, so the claimed
order is false. -/
theorem conn_immediate_close_order_counterexample :
    (let r := conn_immediate_close
       { state := ConnState.conn_immediate_close, socketClosed := true,
         assoc := { bucketIndex := 1, engine := Option.some 7 } }
       [{ state := BucketState.ready, engine := Option.some 100,
          btype := BucketType.no_bucket, clients := 1 },
        { state := BucketState.ready, name := "b1", clients := 1,
          engine := Option.some 7 }]
     ¬ (r.events.indexOf CloseEvent.disassociateBucket
          < r.events.indexOf CloseEvent.disconnectCallbacks)) := by
  decide

/-- Claim C4 (amended): for every connection reaching
`conn_immediate_close`, the steps occur in this order: the listening
port's counter bookkeeping, then the disconnect notification callbacks,
then the disassociation from its bucket (decrementing that bucket's
client count, and signaling the bucket's drain condition variable exactly
when the count reaches zero while the bucket is `Destroying`), then the
final socket bookkeeping with the state set to `destroyed`. -/
theorem conn_immediate_close_order (c : Conn) (table : List Bucket) :
    (let r := conn_immediate_close c table
     let i := c.assoc.bucketIndex.toNat
     let b := table.getD i default
     r.events = [CloseEvent.decrPortConns, CloseEvent.disconnectCallbacks,
                 CloseEvent.disassociateBucket,
                 CloseEvent.finalBookkeeping] ∧
     r.events.indexOf CloseEvent.disconnectCallbacks
       < r.events.indexOf CloseEvent.disassociateBucket ∧
     r.events.indexOf CloseEvent.disassociateBucket
       < r.events.indexOf CloseEvent.finalBookkeeping ∧
     r.conn.state = ConnState.conn_destroyed ∧
     r.table = table.set i { b with clients := b.clients - 1 } ∧
     (AssocEvent.signalCond i ∈ r.assocEvents ↔
        (b.clients - 1 = 0 ∧ b.state = BucketState.destroying))) := by
  refine ⟨rfl, ?_, ?_, rfl, rfl, ?_⟩
  · have hev : (conn_immediate_close c table).events
        = [CloseEvent.decrPortConns, CloseEvent.disconnectCallbacks,
           CloseEvent.disassociateBucket, CloseEvent.finalBookkeeping] := rfl
    rw [hev]; decide
  · have hev : (conn_immediate_close c table).events
        = [CloseEvent.decrPortConns, CloseEvent.disconnectCallbacks,
           CloseEvent.disassociateBucket, CloseEvent.finalBookkeeping] := rfl
    rw [hev]; decide
  · show AssocEvent.signalCond _ ∈ (disassociate_bucket c.assoc table).2.2 ↔ _
    simp only [disassociate_bucket]
    split_ifs with h
    · simp only [List.getD_eq_getElem?_getD] at h
      simp [h.1, h.2]
    · simp only [List.getD_eq_getElem?_getD] at h
      simp [h]

/-- Claim C9 (counterexample): the claim says `disassociate_bucket`
immediately rebinds the connection to sentinel index 0, and concludes that
the sum of all buckets' client counts equals the number of associated
connections.  After a bare `disassociate_bucket` on a live connection (the
requesting connection's self-release inside `do_delete_bucket`), the
connection is still bound to index 0 — an associated connection by the
claim's own first sentence — yet the client counts sum to 0, not 1. -/
theorem client_count_sum_counterexample :
    (let s : System :=
       { table := [{ state := BucketState.ready, clients := 1,
                     engine := Option.some 100,
                     btype := BucketType.no_bucket }],
         conns := [{ bucketIndex := 0, engine := Option.some 100 }] }
     let s' := applyOps s [SysOp.bareDisassociate 0]
     s'.conns.length = 1 ∧
     (∀ c ∈ s'.conns, c.bucketIndex = 0) ∧
     sumClients s'.table = 0) := by
  decide

/-- Claim C3: a connection entering `conn_closing` moves to
`conn_pending_close` exactly when its reference count exceeds 1 or its
`ewouldblock` flag is set, and to `conn_immediate_close` otherwise; a
connection in `conn_pending_close` advances to `conn_immediate_close`
precisely when its reference count has dropped to 1; and `run_event_loop`
releases the connection object only when the observed state is the
terminal `conn_destroyed` — for every behaviour of the state machinery. -/
theorem conn_close_path_spec (c : Conn) (hrc : 1 ≤ c.refcount) :
    ((conn_closing c).1.state
       = if c.refcount > 1 ∨ c.ewouldblock then ConnState.conn_pending_close
         else ConnState.conn_immediate_close) ∧
    (c.state = ConnState.conn_pending_close →
       ((conn_pending_close c).1.state = ConnState.conn_immediate_close
          ↔ c.refcount = 1)) ∧
    (∀ machinery : Conn → Conn, ∀ env : LoanEnv, ∀ ilt : Bool,
       (run_event_loop machinery env ilt c).2.1 = true →
       (run_event_loop machinery env ilt c).1.state
         = ConnState.conn_destroyed) := by
  refine ⟨?_, ?_, ?_⟩
  · simp only [conn_closing, conn_cleanup_engine_allocations]
    split_ifs with h
    · rfl
    · rfl
  · intro hst
    unfold conn_pending_close
    split_ifs with h
    · rw [hst]
      constructor
      · intro he; cases he
      · intro he; omega
    · simp only [true_iff]
      omega
  · intro machinery env ilt hfree
    unfold run_event_loop at hfree ⊢
    simpa using hfree

/-- Claim C3 witness: the theorem applied to a connection with reference
count 2 in `conn_pending_close`. -/
theorem conn_close_path_spec_witness :
    ((conn_closing { state := ConnState.conn_closing, refcount := 2 }).1.state
       = ConnState.conn_pending_close) ∧
    ((conn_pending_close
        { state := ConnState.conn_pending_close, refcount := 2 }).1.state
       = ConnState.conn_immediate_close ↔ (2 : Nat) = 1) := by
  constructor
  · have h := conn_close_path_spec
      { state := ConnState.conn_closing, refcount := 2 } (by decide)
    simpa using h.1
  · have h := conn_close_path_spec
      { state := ConnState.conn_pending_close, refcount := 2 } (by decide)
    exact h.2.1 rfl

/-- Claim C6: a loan on a connection that already holds a buffer returns
`Existing` with both buffers unchanged; otherwise an occupied thread spare
transfers wholesale to the connection (`Loaned`) and the thread's slot is
emptied; otherwise a fresh buffer is allocated for the connection
(`Allocated`); and an allocation failure marks the connection for
`conn_closing` (the total function returns normally — the thread does not
crash), which `conn_loan_buffers` applies to the connection's state. -/
theorem conn_loan_single_buffer_spec (allocOk : Bool) (newId : Nat)
    (tb cb : NetBuf) :
    (cb.buf ≠ Option.none →
       conn_loan_single_buffer allocOk newId tb cb
         = ⟨BufferLoan.Existing, tb, cb, false⟩) ∧
    (cb.buf = Option.none → tb.buf ≠ Option.none →
       conn_loan_single_buffer allocOk newId tb cb
         = ⟨BufferLoan.Loaned,
            { tb with buf := Option.none, size := 0 }, tb, false⟩) ∧
    (cb.buf = Option.none → tb.buf = Option.none → allocOk = true →
       conn_loan_single_buffer allocOk newId tb cb
         = ⟨BufferLoan.Allocated, tb,
            { buf := Option.some newId, size := DATA_BUFFER_SIZE,
              curr := 0, bytes := 0 }, false⟩) ∧
    (cb.buf = Option.none → tb.buf = Option.none → allocOk = false →
       conn_loan_single_buffer allocOk newId tb cb
         = ⟨BufferLoan.Existing, tb, cb, true⟩) ∧
    (∀ env : LoanEnv, ∀ c : Conn, ∀ th : LibeventThread,
       c.thread = Option.some th → c.read.buf = Option.none →
       th.read.buf = Option.none → env.readAllocOk = false →
       (conn_loan_buffers env c).state = ConnState.conn_closing) := by
  refine ⟨?_, ?_, ?_, ?_, ?_⟩
  · intro h
    unfold conn_loan_single_buffer
    rw [if_pos h]
  · intro h1 h2
    unfold conn_loan_single_buffer
    rw [if_neg (by simp [h1]), if_pos h2]
  · intro h1 h2 h3
    unfold conn_loan_single_buffer
    rw [if_neg (by simp [h1]), if_neg (by simp [h2]), if_pos (by simp [h3])]
  · intro h1 h2 h3
    unfold conn_loan_single_buffer
    rw [if_neg (by simp [h1]), if_neg (by simp [h2]),
      if_neg (by simp [h3])]
  · intro env c th hth hcb htb halloc
    unfold conn_loan_buffers
    rw [hth]
    have hfail : conn_loan_single_buffer env.readAllocOk env.newReadId
        th.read c.read
        = ⟨BufferLoan.Existing, th.read, c.read, true⟩ := by
      unfold conn_loan_single_buffer
      rw [if_neg (by simp [hcb]), if_neg (by simp [htb]),
        if_neg (by simp [halloc])]
    simp only [hfail]
    split_ifs <;> rfl

/-- Claim C6 witness: the theorem applied with an empty connection buffer,
an empty thread spare, and a successful allocation of buffer 5; and with a
failing allocation on a concrete connection. -/
theorem conn_loan_single_buffer_spec_witness :
    conn_loan_single_buffer true 5 {} {}
      = ⟨BufferLoan.Allocated, {},
         { buf := Option.some 5, size := DATA_BUFFER_SIZE, curr := 0,
           bytes := 0 }, false⟩ ∧
    (conn_loan_buffers { readAllocOk := false } { thread := Option.some {} }
      ).state = ConnState.conn_closing := by
  constructor
  · exact (conn_loan_single_buffer_spec true 5 {} {}).2.2.1 rfl rfl rfl
  · exact (conn_loan_single_buffer_spec false 0 {} {}).2.2.2.2
      { readAllocOk := false } { thread := Option.some {} } {} rfl rfl rfl rfl

/-- Claim C7: returning a fully drained buffer (cursor at the start, zero
unconsumed bytes) moves it into an empty thread spare slot and frees it
when the slot is occupied, clearing the connection's handle either way; a
buffer with unconsumed data stays with the connection and the thread slot
is untouched; and ownership is conserved — for every buffer identity, the
owners-plus-freed count is preserved exactly, so nothing is leaked or
returned twice. -/
theorem conn_return_single_buffer_spec (tb cb : NetBuf) :
    (∀ id, cb.buf = Option.some id → cb.curr = 0 → cb.bytes = 0 →
       (tb.buf = Option.none →
          conn_return_single_buffer tb cb
            = ⟨cb, { cb with buf := Option.none, curr := 0, size := 0 },
               []⟩) ∧
       (tb.buf ≠ Option.none →
          conn_return_single_buffer tb cb
            = ⟨tb, { cb with buf := Option.none, curr := 0, size := 0 },
               [id]⟩)) ∧
    (¬(cb.curr = 0 ∧ cb.bytes = 0) →
       conn_return_single_buffer tb cb = ⟨tb, cb, []⟩) ∧
    (cb.buf = Option.none →
       conn_return_single_buffer tb cb = ⟨tb, cb, []⟩) ∧
    (∀ b : Nat,
       ownsCount (conn_return_single_buffer tb cb).threadBuf
           (conn_return_single_buffer tb cb).connBuf b
         + (conn_return_single_buffer tb cb).freed.count b
         = ownsCount tb cb b) := by
  refine ⟨?_, ?_, ?_, ?_⟩
  · intro id hid hcurr hbytes
    constructor
    · intro htb
      simp [conn_return_single_buffer, hid, hcurr, hbytes, htb]
    · intro htb
      simp [conn_return_single_buffer, hid, hcurr, hbytes, htb]
  · intro h
    rcases hm : cb.buf with _ | id
    · simp [conn_return_single_buffer, hm]
    · simp [conn_return_single_buffer, hm, h]
  · intro h
    simp [conn_return_single_buffer, h]
  · intro b
    rcases hm : cb.buf with _ | id
    · simp [conn_return_single_buffer, hm, ownsCount]
    · by_cases hdr : cb.curr = 0 ∧ cb.bytes = 0
      · by_cases htb : tb.buf = Option.none
        · simp [conn_return_single_buffer, hm, hdr.1, hdr.2, htb, ownsCount]
        · by_cases hb : id = b
          · subst hb
            simp [conn_return_single_buffer, hm, hdr.1, hdr.2, htb,
              ownsCount]
          · simp [conn_return_single_buffer, hm, hdr.1, hdr.2, htb,
              ownsCount, hb, List.count_cons, List.count_nil]
      · simp [conn_return_single_buffer, hm, hdr, ownsCount]

/-- Claim C7 witness: returning drained buffer 3 to a thread whose spare
slot already holds buffer 9 frees buffer 3 — and the ownership count of
buffer 3 is conserved through the return. -/
theorem conn_return_single_buffer_spec_witness :
    conn_return_single_buffer
        { buf := Option.some 9, size := 2048 }
        { buf := Option.some 3, size := 2048, curr := 0, bytes := 0 }
      = ⟨{ buf := Option.some 9, size := 2048 },
         { buf := Option.none, size := 0, curr := 0, bytes := 0 }, [3]⟩ := by
  exact ((conn_return_single_buffer_spec
      { buf := Option.some 9, size := 2048 }
      { buf := Option.some 3, size := 2048, curr := 0, bytes := 0 }).1
    3 rfl rfl rfl).2 (by simp)

/-- Claim C10: the streaming exemption does not apply at teardown —
`conn_cleanup` clears the TAP iterator and DCP flag and resets both
buffers to the drained condition before returning them, so afterwards (and
hence after `conn_close`, which also reaches `conn_destroyed`) both buffer
handles are `NULL`, each previously held buffer now sitting in the
thread's spare slot or freed, even for streaming connections. -/
theorem conn_cleanup_clears_buffers (c : Conn) (th : LibeventThread)
    (hth : c.thread = Option.some th) :
    (conn_cleanup c).conn.read.buf = Option.none ∧
    (conn_cleanup c).conn.write.buf = Option.none ∧
    (∀ b, c.read.buf = Option.some b →
       (∃ th', (conn_cleanup c).thread = Option.some th' ∧
          th'.read.buf = Option.some b) ∨ b ∈ (conn_cleanup c).freed) ∧
    (∀ b, c.write.buf = Option.some b →
       (∃ th', (conn_cleanup c).thread = Option.some th' ∧
          th'.write.buf = Option.some b) ∨ b ∈ (conn_cleanup c).freed) ∧
    (conn_close c).conn.read.buf = Option.none ∧
    (conn_close c).conn.write.buf = Option.none ∧
    (conn_close c).conn.state = ConnState.conn_destroyed := by
  rcases hr : c.read.buf with _ | br <;>
    rcases hw : c.write.buf with _ | bw <;>
      rcases htr : th.read.buf with _ | tr <;>
        rcases htw : th.write.buf with _ | tw <;>
          simp [conn_cleanup, conn_close, conn_return_buffers,
            conn_return_single_buffer, Conn.isTAP, Conn.isDCP, hth, hr, hw,
            htr, htw]

/-- Claim C10 witness: the theorem applied to a DCP (streaming)
connection holding read buffer 3 and write buffer 4, on a thread whose
read slot is empty and whose write slot holds buffer 9: buffer 3 moves to
the thread's read slot and buffer 4 is freed. -/
theorem conn_cleanup_clears_buffers_witness :
    (conn_cleanup
       { dcp := true, tapIterator := Option.some 1,
         read := { buf := Option.some 3, size := 2048, curr := 7,
                   bytes := 2 },
         write := { buf := Option.some 4, size := 2048 },
         thread := Option.some
           { write := { buf := Option.some 9, size := 2048 } } }
      ).conn.read.buf = Option.none ∧
    ((∃ th', (conn_cleanup
       { dcp := true, tapIterator := Option.some 1,
         read := { buf := Option.some 3, size := 2048, curr := 7,
                   bytes := 2 },
         write := { buf := Option.some 4, size := 2048 },
         thread := Option.some
           { write := { buf := Option.some 9, size := 2048 } } }
      ).thread = Option.some th' ∧ th'.read.buf = Option.some 3) ∨
      (3 : Nat) ∈ (conn_cleanup
       { dcp := true, tapIterator := Option.some 1,
         read := { buf := Option.some 3, size := 2048, curr := 7,
                   bytes := 2 },
         write := { buf := Option.some 4, size := 2048 },
         thread := Option.some
           { write := { buf := Option.some 9, size := 2048 } } }
      ).freed) := by
  have h := conn_cleanup_clears_buffers
    { dcp := true, tapIterator := Option.some 1,
      read := { buf := Option.some 3, size := 2048, curr := 7, bytes := 2 },
      write := { buf := Option.some 4, size := 2048 },
      thread := Option.some
        { write := { buf := Option.some 9, size := 2048 } } }
    { write := { buf := Option.some 9, size := 2048 } } rfl
  exact ⟨h.1, h.2.2.1 3 rfl⟩

/-- Claim C2: for a delete-bucket request naming an existing bucket (the
scan resolves to the first slot with that name), the request succeeds if
and only if that bucket is `Ready`; in any other state it fails with
`ENGINE_KEY_EEXISTS` — distinct from `ENGINE_KEY_ENOENT` — performing no
step at all (no `destroy`); and on the successful path the bucket is
marked `Destroying`, the engine's `destroy` runs exactly once, and the
slot ends in state `None` with its name cleared. -/
theorem do_delete_bucket_spec (c : ConnAssoc) (name : String)
    (force : Bool) (table : List Bucket)
    (hex : ∃ j, j < table.length ∧ (table.getD j default).name = name) :
    ∃ i, i < table.length ∧
      findBucketByName name table = Option.some i ∧
      (table.getD i default).name = name ∧
      (∀ j, j < i → (table.getD j default).name ≠ name) ∧
      ((do_delete_bucket c name force table).ret = EngineErrorCode.success
         ↔ (table.getD i default).state = BucketState.ready) ∧
      ((table.getD i default).state ≠ BucketState.ready →
         (do_delete_bucket c name force table).ret
             = EngineErrorCode.key_eexists ∧
         EngineErrorCode.key_eexists ≠ EngineErrorCode.key_enoent ∧
         (do_delete_bucket c name force table).events = [] ∧
         (do_delete_bucket c name force table).table = table) ∧
      ((table.getD i default).state = BucketState.ready →
         (do_delete_bucket c name force table).events.countP
             (fun e => match e with
               | DeleteEvent.destroyEngine _ _ => true
               | _ => false) = 1 ∧
         DeleteEvent.markDestroying i
             ∈ (do_delete_bucket c name force table).events ∧
         ((do_delete_bucket c name force table).table.getD i default).state
             = BucketState.none ∧
         ((do_delete_bucket c name force table).table.getD i default).name
             = "") := by
  obtain ⟨j, hj, hpj⟩ := hex
  obtain ⟨i, hfi, hij⟩ := firstIdx_complete
    (fun b => b.name = name) table j hj (by simpa using hpj)
  obtain ⟨hi, hp, hmin⟩ := firstIdx_sound (fun b => b.name = name) table i hfi
  have hfind : findBucketByName name table = Option.some i := hfi
  refine ⟨i, hi, hfind, by simpa using hp,
    fun j' hj' => by simpa using hmin j' hj', ?_, ?_, ?_⟩
  · by_cases hready : (table.getD i default).state = BucketState.ready
    · simp only [do_delete_bucket, hfind]
      rw [if_pos hready]
      exact ⟨fun _ => hready, fun _ => rfl⟩
    · simp only [do_delete_bucket, hfind]
      rw [if_neg hready]
      exact ⟨fun he => EngineErrorCode.noConfusion he,
        fun hs => absurd hs hready⟩
  · intro hready
    simp only [do_delete_bucket, hfind]
    rw [if_neg hready]
    exact ⟨rfl, by decide, rfl, rfl⟩
  · intro hready
    simp only [do_delete_bucket, hfind]
    rw [if_pos hready]
    by_cases hc : c.bucketIndex = (i : Int)
    · simp only [if_pos hc]
      refine ⟨?_, ?_, ?_, ?_⟩
      · simp [List.countP_cons, List.countP_append]
      · simp
      · rw [getD_set_self _ i _ (by simp [disassociate_bucket, hi])]
      · rw [getD_set_self _ i _ (by simp [disassociate_bucket, hi])]
    · simp only [if_neg hc]
      refine ⟨?_, ?_, ?_, ?_⟩
      · simp [List.countP_cons, List.countP_append]
      · simp
      · rw [getD_set_self _ i _ (by simp [hi])]
      · rw [getD_set_self _ i _ (by simp [hi])]

/-- Claim C2 witness: deleting the `Ready` bucket `"b1"` of a concrete
two-slot table succeeds. -/
theorem do_delete_bucket_spec_witness :
    (do_delete_bucket { bucketIndex := 0 } "b1" false
      [{ state := BucketState.ready, engine := Option.some 100,
         btype := BucketType.no_bucket },
       { state := BucketState.ready, name := "b1",
         engine := Option.some 7 }]).ret = EngineErrorCode.success := by
  obtain ⟨i, hi, hfind, hname, hmin, hiff, hbad, hgood⟩ :=
    do_delete_bucket_spec { bucketIndex := 0 } "b1" false
      [{ state := BucketState.ready, engine := Option.some 100,
         btype := BucketType.no_bucket },
       { state := BucketState.ready, name := "b1",
         engine := Option.some 7 }]
      ⟨1, by decide, by decide⟩
  have h1 : i = 1 := by
    have hv : findBucketByName "b1"
        [{ state := BucketState.ready, engine := Option.some 100,
           btype := BucketType.no_bucket },
         { state := BucketState.ready, name := "b1",
           engine := Option.some 7 }] = Option.some 1 := by decide
    rw [hv] at hfind
    exact (Option.some.inj hfind).symm
  subst h1
  exact hiff.mpr (by decide)

theorem reset_cmd_handler_numEvents (c : Conn) :
    (reset_cmd_handler c).numEvents = c.numEvents := by
  simp only [reset_cmd_handler]; split_ifs <;> rfl

theorem reset_cmd_handler_read_bytes (c : Conn) :
    (reset_cmd_handler c).read.bytes = c.read.bytes := by
  simp only [reset_cmd_handler]; split_ifs <;> rfl

theorem reset_cmd_handler_assoc (c : Conn) :
    (reset_cmd_handler c).assoc = c.assoc := by
  simp only [reset_cmd_handler]; split_ifs <;> rfl

theorem reset_cmd_handler_dcp (c : Conn) :
    (reset_cmd_handler c).dcp = c.dcp := by
  simp only [reset_cmd_handler]; split_ifs <;> rfl

theorem reset_cmd_handler_tapIterator (c : Conn) :
    (reset_cmd_handler c).tapIterator = c.tapIterator := by
  simp only [reset_cmd_handler]; split_ifs <;> rfl

theorem reset_cmd_handler_stdStream (c : Conn) :
    (reset_cmd_handler c).stdStream = c.stdStream := by
  simp only [reset_cmd_handler]; split_ifs <;> rfl

/-- Claim C5: a connection in `conn_new_cmd` whose requests-per-event
budget is `K` and whose read buffer always holds a further complete
pipelined request processes exactly `K` requests in one scheduling and
then yields (`conn_new_cmd` returns the yield verdict), regardless of the
buffered data; and since data is still buffered it registers
`EV_WRITE | EV_PERSIST` — write readiness as a proxy wakeup, not
`EV_READ`. -/
theorem pipelined_fairness (K : Nat) (fuel : Nat) (table : List Bucket)
    (c : Conn) (hfu : K < fuel)
    (hnum : c.numEvents = (K : Int))
    (hbytes : 0 < c.read.bytes)
    (hready : (table.getD c.assoc.bucketIndex.toNat default).state
        = BucketState.ready)
    (hdcp : c.dcp = false) (htap : c.tapIterator = Option.none)
    (hstd : c.stdStream = false)
    (hst : c.state = ConnState.conn_new_cmd) :
    (pipelinedRun false true table fuel c).1 = K ∧
    (pipelinedRun false true table fuel c).2.runAgain = false ∧
    (pipelinedRun false true table fuel c).2.conn.regFlags
      = { evRead := false, evWrite := true, evPersist := true } ∧
    (pipelinedRun false true table fuel c).2.conn.state
      = ConnState.conn_new_cmd := by
  rw [List.getD_eq_getElem?_getD] at hready
  induction K generalizing c fuel with
  | zero =>
    cases fuel with
    | zero => omega
    | succ f =>
      have hstep : conn_new_cmd false true table c
          = ⟨{ c with
               start := 0,
               numEvents := c.numEvents - 1,
               eventRegistered := true,
               regFlags := { evRead := c.stdStream, evWrite := true, evPersist := true } },
             false, false⟩ := by
        unfold conn_new_cmd Conn.decrementNumEvents
        rw [if_neg (by simp [is_bucket_dying, hready])]
        rw [if_neg (by rw [hnum]; norm_num)]
        rw [if_pos (by simp [Conn.havePendingInputData, hbytes])]
        rw [if_pos rfl]
      simp only [pipelinedRun, hstep]
      exact ⟨rfl, rfl, by simp [hstd], by simp [hst]⟩
  | succ k ih =>
    cases fuel with
    | zero => omega
    | succ f =>
      have hstep : conn_new_cmd false true table c
          = ⟨reset_cmd_handler
               { c with
                 start := 0,
                 numEvents := c.numEvents - 1 },
             true, true⟩ := by
        unfold conn_new_cmd Conn.decrementNumEvents
        rw [if_neg (by simp [is_bucket_dying, hready])]
        rw [if_pos (by rw [hnum]; push_cast; omega)]
      simp only [pipelinedRun, hstep]
      have hrec := ih f
        { reset_cmd_handler
            { c with
              start := 0,
              numEvents := c.numEvents - 1 } with
          state := ConnState.conn_new_cmd }
        (by omega)
        (by simp [reset_cmd_handler_numEvents, hnum]
            try omega)
        (by simpa [reset_cmd_handler_read_bytes] using hbytes)
        (by simpa [reset_cmd_handler_assoc] using hready)
        (by simpa [reset_cmd_handler_dcp] using hdcp)
        (by simpa [reset_cmd_handler_tapIterator] using htap)
        (by simpa [reset_cmd_handler_stdStream] using hstd)
        rfl
      refine ⟨?_, ?_, ?_, ?_⟩
      · simp [pipelinedRun, hstep, hrec.1]
      · simp [pipelinedRun, hstep, hrec.2.1]
      · simp [pipelinedRun, hstep, hrec.2.2.1]
      · simp [pipelinedRun, hstep, hrec.2.2.2]

/-- Claim C5 witness: a connection with budget 2 and a never-empty read
buffer processes exactly 2 requests in one scheduling and then registers
`EV_WRITE | EV_PERSIST`. -/
theorem pipelined_fairness_witness :
    (pipelinedRun false true
        [{ state := BucketState.ready, engine := Option.some 100,
           btype := BucketType.no_bucket }] 3
        { state := ConnState.conn_new_cmd, numEvents := 2,
          read := { buf := Option.some 5, size := 2048, curr := 0,
                    bytes := 24 },
          assoc := { bucketIndex := 0, engine := Option.some 100 } }).1
      = 2 ∧
    (pipelinedRun false true
        [{ state := BucketState.ready, engine := Option.some 100,
           btype := BucketType.no_bucket }] 3
        { state := ConnState.conn_new_cmd, numEvents := 2,
          read := { buf := Option.some 5, size := 2048, curr := 0,
                    bytes := 24 },
          assoc := { bucketIndex := 0, engine := Option.some 100 } }
      ).2.conn.regFlags
      = { evRead := false, evWrite := true, evPersist := true } := by
  have h := pipelined_fairness 2 3
    [{ state := BucketState.ready, engine := Option.some 100,
       btype := BucketType.no_bucket }]
    { state := ConnState.conn_new_cmd, numEvents := 2,
      read := { buf := Option.some 5, size := 2048, curr := 0,
                bytes := 24 },
      assoc := { bucketIndex := 0, engine := Option.some 100 } }
    (by decide) (by decide) (by decide) (by decide) rfl rfl rfl rfl
  exact ⟨h.1, h.2.2.1⟩

/-- Claim C8: `associate_bucket` scans slots `1 .. max_buckets-1`; when
some `Ready` bucket there carries exactly the requested name, the first
such bucket has its client count incremented and the connection's bucket
index and engine pointer are bound to it with result `true`; otherwise the
connection is bound to the degenerate "no bucket" at index 0 — whose
client count is incremented — and the call returns `false` rather than
failing, so selecting a nonexistent bucket leaves the connection on "no
bucket". -/
theorem associate_bucket_spec (c : ConnAssoc) (name : String)
    (table : List Bucket) (hpos : 0 < table.length) :
    ((∃ j, 1 ≤ j ∧ j < table.length ∧
        (table.getD j default).state = BucketState.ready ∧
        (table.getD j default).name = name) →
      ∃ i, 1 ≤ i ∧ i < table.length ∧
        (table.getD i default).state = BucketState.ready ∧
        (table.getD i default).name = name ∧
        (∀ j, 1 ≤ j → j < i →
          ¬((table.getD j default).state = BucketState.ready ∧
             (table.getD j default).name = name)) ∧
        (associate_bucket c name table).1 = true ∧
        (associate_bucket c name table).2.1.bucketIndex = (i : Int) ∧
        (associate_bucket c name table).2.1.engine
          = (table.getD i default).engine ∧
        ((associate_bucket c name table).2.2.1.getD i default).clients
          = (((disassociate_bucket c table).2.1).getD i default).clients
              + 1) ∧
    ((∀ j, 1 ≤ j → j < table.length →
        ¬((table.getD j default).state = BucketState.ready ∧
           (table.getD j default).name = name)) →
      (associate_bucket c name table).1 = false ∧
      (associate_bucket c name table).2.1.bucketIndex = 0 ∧
      (associate_bucket c name table).2.1.engine
        = (table.getD 0 default).engine ∧
      ((associate_bucket c name table).2.2.1.getD 0 default).clients
        = (((disassociate_bucket c table).2.1).getD 0 default).clients
            + 1) := by
  have hcongr : scanReadyBucket name (disassociate_bucket c table).2.1
      = scanReadyBucket name table :=
    scanReadyBucket_set_congr name table c.bucketIndex.toNat _ rfl rfl
  have hlen1 : ((disassociate_bucket c table).2.1).length = table.length :=
    List.length_set table _ _
  have hdlen : (table.drop 1).length = table.length - 1 := by
    simp [List.length_drop]
  constructor
  · rintro ⟨j, hj1, hjlen, hjs, hjn⟩
    have hjd : j - 1 < (table.drop 1).length := by omega
    have hpj : (fun b => decide (b.state = BucketState.ready ∧
        b.name = name)) ((table.drop 1).getD (j - 1) default) = true := by
      rw [getD_drop_one _ _ hj1]
      simp only [decide_eq_true_eq]
      exact ⟨hjs, hjn⟩
    obtain ⟨i', hfi', _⟩ := firstIdx_complete
      (fun b => decide (b.state = BucketState.ready ∧ b.name = name))
      (table.drop 1) (j - 1) hjd hpj
    obtain ⟨hi', hp', hmin'⟩ := firstIdx_sound _ (table.drop 1) i' hfi'
    have hscan : scanReadyBucket name table = Option.some (i' + 1) := by
      unfold scanReadyBucket
      rw [hfi']
    have hget : (table.drop 1).getD i' default
        = table.getD (i' + 1) default := by
      have := getD_drop_one (l := table) (i := i' + 1) (by omega)
      simpa using this
    rw [hget] at hp'
    have hp'' : (table.getD (i' + 1) default).state = BucketState.ready ∧
        (table.getD (i' + 1) default).name = name := by
      simpa using hp'
    refine ⟨i' + 1, by omega, by omega, hp''.1, hp''.2, ?_, ?_, ?_, ?_, ?_⟩
    · intro j0 hj01 hj0i
      have hm := hmin' (j0 - 1) (by omega)
      rw [getD_drop_one _ _ hj01] at hm
      intro hcontra
      rw [hcontra.1, hcontra.2] at hm
      simp at hm
    · simp only [associate_bucket, hcongr, hscan]
    · simp only [associate_bucket, hcongr, hscan]
    · simp only [associate_bucket, hcongr, hscan]
      exact engine_getD_set table _ _ _ rfl
    · simp only [associate_bucket, hcongr, hscan]
      rw [getD_set_self _ _ _ (by omega)]
  · intro hnone
    have hscan : scanReadyBucket name table = Option.none := by
      unfold scanReadyBucket
      match hsc : firstIdx (fun b => decide (b.state = BucketState.ready ∧
          b.name = name)) (table.drop 1) with
      | Option.none => rw [hsc]
      | Option.some k =>
        obtain ⟨hk, hpk, _⟩ := firstIdx_sound _ (table.drop 1) k hsc
        have hget : (table.drop 1).getD k default
            = table.getD (k + 1) default := by
          have := getD_drop_one (l := table) (i := k + 1) (by omega)
          simpa using this
        rw [hget] at hpk
        have hk1 : ¬((table.getD (k + 1) default).state = BucketState.ready
            ∧ (table.getD (k + 1) default).name = name) :=
          hnone (k + 1) (by omega) (by omega)
        have hpk' : (table.getD (k + 1) default).state = BucketState.ready
            ∧ (table.getD (k + 1) default).name = name := by
          simpa using hpk
        exact absurd hpk' hk1
    refine ⟨?_, ?_, ?_, ?_⟩
    · simp only [associate_bucket, hcongr, hscan]
    · simp only [associate_bucket, hcongr, hscan]
    · simp only [associate_bucket, hcongr, hscan]
      exact engine_getD_set table _ _ _ rfl
    · simp only [associate_bucket, hcongr, hscan]
      rw [getD_set_self _ _ _ (by omega)]

/-- Claim C8 witness: selecting bucket `"b1"` (Ready in slot 1 of a
concrete table) succeeds and binds the connection to slot 1. -/
theorem associate_bucket_spec_witness :
    (associate_bucket { bucketIndex := 0, engine := Option.some 100 } "b1"
      [{ state := BucketState.ready, engine := Option.some 100,
         btype := BucketType.no_bucket, clients := 1 },
       { state := BucketState.ready, name := "b1", clients := 2,
         engine := Option.some 7 }]).1 = true := by
  obtain ⟨i, hi1, hilen, hist, hiname, hmin, hfound, hrest⟩ :=
    (associate_bucket_spec { bucketIndex := 0, engine := Option.some 100 }
      "b1"
      [{ state := BucketState.ready, engine := Option.some 100,
         btype := BucketType.no_bucket, clients := 1 },
       { state := BucketState.ready, name := "b1", clients := 2,
         engine := Option.some 7 }] (by decide)).1
      ⟨1, by decide, by decide, by decide, by decide⟩
  exact hfound

theorem scanReadyBucket_bounds (name : String) (t : List Bucket) (i : Nat)
    (h : scanReadyBucket name t = Option.some i) :
    1 ≤ i ∧ i < t.length := by
  unfold scanReadyBucket at h
  match hf : firstIdx (fun b => decide (b.state = BucketState.ready ∧
      b.name = name)) (t.drop 1) with
  | Option.none => rw [hf] at h; cases h
  | Option.some k =>
    rw [hf] at h
    obtain ⟨hk, _, _⟩ := firstIdx_sound _ (t.drop 1) k hf
    have hdlen : (t.drop 1).length = t.length - 1 := by
      simp [List.length_drop]
    cases h
    omega

theorem clients_getD_set_eq (t : List Bucket) (i i0 : Nat) (ν : Int)
    (h : i < t.length) :
    ((t.set i { t.getD i default with clients := ν }).getD i0
        default).clients
      = if i = i0 then ν else (t.getD i0 default).clients := by
  by_cases heq : i = i0
  · subst heq
    rw [getD_set_self _ _ _ h, if_pos rfl]
  · rw [if_neg heq]
    by_cases hi0 : i0 < t.length
    · rw [getD_of_lt _ _ _ (by simpa using hi0), getD_of_lt _ _ _ hi0]
      simp [List.get_eq_getElem, List.getElem_set_ne heq]
    · rw [getD_oob _ _ (by simpa using le_of_not_lt hi0),
        getD_oob _ _ (le_of_not_lt hi0)]

theorem sumClients_set_eq (t : List Bucket) (i : Nat) (ν : Int)
    (h : i < t.length) :
    sumClients (t.set i { t.getD i default with clients := ν })
      = sumClients t + ν - (t.getD i default).clients := by
  have hs := sumClients_set t i
    { t.getD i default with clients := ν } h
  have hg : t.get ⟨i, h⟩ = t.getD i default :=
    (getD_of_lt t i default h).symm
  rw [hg] at hs
  have hproj : ({ t.getD i default with clients := ν } : Bucket).clients
      = ν := rfl
  rw [hproj] at hs
  omega

theorem disassociate_bucket_pointwise (c : ConnAssoc) (t : List Bucket)
    (hnn : 0 ≤ c.bucketIndex) (hlt : c.bucketIndex.toNat < t.length) :
    (disassociate_bucket c t).1
      = { bucketIndex := 0, engine := Option.none } ∧
    ((disassociate_bucket c t).2.1).length = t.length ∧
    (∀ i0, i0 < t.length →
      (((disassociate_bucket c t).2.1).getD i0 default).clients
        = (t.getD i0 default).clients
            - (if c.bucketIndex = (i0 : Int) then 1 else 0)) ∧
    sumClients (disassociate_bucket c t).2.1 = sumClients t - 1 := by
  have hrw : (disassociate_bucket c t).2.1
      = t.set c.bucketIndex.toNat
        { t.getD c.bucketIndex.toNat default with
          clients := (t.getD c.bucketIndex.toNat default).clients - 1 } :=
    rfl
  refine ⟨rfl, by rw [hrw]; exact List.length_set t _ _, ?_, ?_⟩
  · intro i0 hi0
    rw [hrw, clients_getD_set_eq t _ i0 _ hlt]
    have hcast : c.bucketIndex = (c.bucketIndex.toNat : Int) :=
      (Int.toNat_of_nonneg hnn).symm
    by_cases heq : c.bucketIndex.toNat = i0
    · rw [if_pos heq, if_pos (by omega), heq]
    · rw [if_neg heq, if_neg (by omega)]
      omega
  · rw [hrw, sumClients_set_eq t _ _ hlt]
    omega

theorem associate_bucket_pointwise (c : ConnAssoc) (name : String)
    (t : List Bucket) (hpos : 0 < t.length)
    (hnn : 0 ≤ c.bucketIndex) (hlt : c.bucketIndex.toNat < t.length) :
    0 ≤ (associate_bucket c name t).2.1.bucketIndex ∧
    (associate_bucket c name t).2.1.bucketIndex.toNat < t.length ∧
    ((associate_bucket c name t).2.2.1).length = t.length ∧
    (∀ i0, i0 < t.length →
      (((associate_bucket c name t).2.2.1).getD i0 default).clients
        = (t.getD i0 default).clients
            - (if c.bucketIndex = (i0 : Int) then 1 else 0)
            + (if (associate_bucket c name t).2.1.bucketIndex = (i0 : Int)
               then 1 else 0)) ∧
    sumClients (associate_bucket c name t).2.2.1 = sumClients t := by
  obtain ⟨hc1, hlen1, hpt1, hsum1⟩ :=
    disassociate_bucket_pointwise c t hnn hlt
  have hcast : ∀ k i0 : Nat, ((k : Int) = (i0 : Int)) ↔ k = i0 := by
    intro k i0; omega
  match hscan : scanReadyBucket name (disassociate_bucket c t).2.1 with
  | Option.some i2 =>
    obtain ⟨hi21, hi2len⟩ := scanReadyBucket_bounds _ _ _ hscan
    rw [hlen1] at hi2len
    have hset : (associate_bucket c name t).2.2.1
        = ((disassociate_bucket c t).2.1).set i2
          { ((disassociate_bucket c t).2.1).getD i2 default with
            clients :=
              (((disassociate_bucket c t).2.1).getD i2 default).clients
                + 1 } := by
      simp only [associate_bucket, hscan]
    have hbidx : (associate_bucket c name t).2.1.bucketIndex
        = (i2 : Int) := by
      simp only [associate_bucket, hscan]
    refine ⟨by rw [hbidx]; omega,
      by rw [hbidx]; simpa using hi2len, ?_, ?_, ?_⟩
    · rw [hset, List.length_set, hlen1]
    · intro i0 hi0
      rw [hset, hbidx,
        clients_getD_set_eq _ _ i0 _ (by omega), hpt1 i0 hi0]
      by_cases heq : i2 = i0
      · rw [if_pos heq, if_pos ((hcast i2 i0).mpr heq),
          hpt1 i2 (by omega), heq]
      · rw [if_neg heq, if_neg (fun hx => heq ((hcast i2 i0).mp hx))]
        omega
    · rw [hset, sumClients_set_eq _ _ _ (by omega)]
      omega
  | Option.none =>
    have hset : (associate_bucket c name t).2.2.1
        = ((disassociate_bucket c t).2.1).set 0
          { ((disassociate_bucket c t).2.1).getD 0 default with
            clients :=
              (((disassociate_bucket c t).2.1).getD 0 default).clients
                + 1 } := by
      simp only [associate_bucket, hscan]
    have hbidx : (associate_bucket c name t).2.1.bucketIndex = 0 := by
      simp only [associate_bucket, hscan]
    refine ⟨by rw [hbidx], by rw [hbidx]; simpa using hpos, ?_, ?_, ?_⟩
    · rw [hset, List.length_set, hlen1]
    · intro i0 hi0
      rw [hset, hbidx,
        clients_getD_set_eq _ _ i0 _ (by omega), hpt1 i0 hi0]
      by_cases heq : 0 = i0
      · rw [if_pos heq, if_pos (by omega : (0 : Int) = (i0 : Int)),
          hpt1 0 (by omega), heq]
      · rw [if_neg heq, if_neg (by omega : ¬((0 : Int) = (i0 : Int)))]
        omega
    · rw [hset, sumClients_set_eq _ _ _ (by omega)]
      omega

theorem countAt_set_int (conns : List ConnAssoc) (j : Nat) (a : ConnAssoc)
    (i0 : Nat) (hj : j < conns.length) :
    (countAt (conns.set j a) i0 : Int)
      = (countAt conns i0 : Int)
        - (if (conns.get ⟨j, hj⟩).bucketIndex = (i0 : Int) then 1 else 0)
        + (if a.bucketIndex = (i0 : Int) then 1 else 0) := by
  have h := countP_set_eq conns j a
    (fun cc => decide (cc.bucketIndex = (i0 : Int))) hj
  simp only [decide_eq_true_eq] at h
  unfold countAt
  by_cases h1 : (conns.get ⟨j, hj⟩).bucketIndex = (i0 : Int) <;>
    by_cases h2 : a.bucketIndex = (i0 : Int) <;>
      simp only [h1, h2, if_true, if_false] at h ⊢ <;>
        (try simp at h ⊢) <;> omega

theorem countAt_eraseIdx_int (conns : List ConnAssoc) (j : Nat) (i0 : Nat)
    (hj : j < conns.length) :
    (countAt (conns.eraseIdx j) i0 : Int)
      = (countAt conns i0 : Int)
        - (if (conns.get ⟨j, hj⟩).bucketIndex = (i0 : Int) then 1
           else 0) := by
  have h := countP_eraseIdx_eq conns j
    (fun cc => decide (cc.bucketIndex = (i0 : Int))) hj
  simp only [decide_eq_true_eq] at h
  unfold countAt
  by_cases h1 : (conns.get ⟨j, hj⟩).bucketIndex = (i0 : Int) <;>
    simp only [h1, if_true, if_false] at h ⊢ <;>
      (try simp at h ⊢) <;> omega

theorem countAt_append_one (conns : List ConnAssoc) (a : ConnAssoc)
    (i0 : Nat) :
    (countAt (conns ++ [a]) i0 : Int)
      = (countAt conns i0 : Int)
        + (if a.bucketIndex = (i0 : Int) then 1 else 0) := by
  unfold countAt
  rw [List.countP_append]
  by_cases h2 : a.bucketIndex = (i0 : Int) <;>
    simp [List.countP_cons, h2]

theorem applyOp_inv (s : System) (op : SysOp) (hinv : SysInv s)
    (hop : ∀ j, op ≠ SysOp.bareDisassociate j) :
    SysInv (applyOp s op) := by
  obtain ⟨hpos, hval, hcount, hsum⟩ := hinv
  cases op with
  | bareDisassociate j => exact absurd rfl (hop j)
  | openConn =>
    have hlen0 : (s.table.set 0
        { s.table.getD 0 default with
          clients := (s.table.getD 0 default).clients + 1 }).length
        = s.table.length := List.length_set _ _ _
    have htab : (applyOp s SysOp.openConn).table
        = (associate_bucket
            { bucketIndex := 0, engine := (s.table.getD 0 default).engine }
            "default"
            (s.table.set 0
              { s.table.getD 0 default with
                clients := (s.table.getD 0 default).clients + 1 })).2.2.1 :=
      rfl
    have hcon : (applyOp s SysOp.openConn).conns
        = s.conns ++ [(associate_bucket
            { bucketIndex := 0, engine := (s.table.getD 0 default).engine }
            "default"
            (s.table.set 0
              { s.table.getD 0 default with
                clients := (s.table.getD 0 default).clients + 1 })).2.1] :=
      rfl
    obtain ⟨hnn2, hlt2, hlen2, hpt2, hsum2⟩ :=
      associate_bucket_pointwise
        { bucketIndex := 0, engine := (s.table.getD 0 default).engine }
        "default"
        (s.table.set 0
          { s.table.getD 0 default with
            clients := (s.table.getD 0 default).clients + 1 })
        (by simpa using hpos) (le_refl 0) (by simpa using hpos)
    rw [hlen0] at hlt2 hlen2
    refine ⟨?_, ?_, ?_, ?_⟩
    · rw [htab]
      omega
    · intro cc hcc
      rw [hcon] at hcc
      rw [htab]
      rcases List.mem_append.mp hcc with hmem | hone
      · have := hval cc hmem
        exact ⟨this.1, by omega⟩
      · have heq : cc = (associate_bucket
            { bucketIndex := 0, engine := (s.table.getD 0 default).engine }
            "default"
            (s.table.set 0
              { s.table.getD 0 default with
                clients := (s.table.getD 0 default).clients + 1 })).2.1 := by
          simpa using hone
        subst heq
        exact ⟨hnn2, by omega⟩
    · intro i0 hi0
      rw [htab] at hi0 ⊢
      rw [hcon]
      have hi0' : i0 < s.table.length := by omega
      rw [hpt2 i0 (by simpa [hlen0] using hi0'), countAt_append_one,
        clients_getD_set_eq _ _ _ _ hpos]
      have hc := hcount i0 hi0'
      have hproj : ConnAssoc.bucketIndex
          { bucketIndex := 0,
            engine := (s.table.getD 0 default).engine } = (0 : Int) := rfl
      rw [hproj]
      by_cases h0 : (0 : Nat) = i0
      · subst h0
        rw [if_pos rfl, if_pos (by omega : (0 : Int) = ((0 : Nat) : Int))]
        omega
      · rw [if_neg h0, if_neg (by omega : ¬((0 : Int) = (i0 : Int)))]
        omega
    · rw [htab, hcon, hsum2, sumClients_set_eq _ _ _ hpos]
      simp only [List.length_append, List.length_cons, List.length_nil]
      omega
  | selectBucket j name =>
    by_cases hj : j < s.conns.length
    · have hmem : s.conns.get ⟨j, hj⟩ ∈ s.conns := s.conns.get_mem j hj
      have hvj := hval (s.conns.get ⟨j, hj⟩) hmem
      have htab : (applyOp s (SysOp.selectBucket j name)).table
          = (associate_bucket (s.conns.get ⟨j, hj⟩) name s.table).2.2.1 := by
        simp [applyOp, hj]
      have hcon : (applyOp s (SysOp.selectBucket j name)).conns
          = s.conns.set j
              (associate_bucket (s.conns.get ⟨j, hj⟩) name s.table).2.1 := by
        simp [applyOp, hj]
      obtain ⟨hnn2, hlt2, hlen2, hpt2, hsum2⟩ :=
        associate_bucket_pointwise (s.conns.get ⟨j, hj⟩) name s.table
          hpos hvj.1 hvj.2
      refine ⟨?_, ?_, ?_, ?_⟩
      · rw [htab]
        omega
      · intro cc hcc
        rw [hcon] at hcc
        rw [htab]
        rcases List.mem_or_eq_of_mem_set hcc with hmem2 | heq
        · have := hval cc hmem2
          exact ⟨this.1, by omega⟩
        · subst heq
          exact ⟨hnn2, by omega⟩
      · intro i0 hi0
        rw [htab] at hi0 ⊢
        rw [hcon]
        have hi0' : i0 < s.table.length := by omega
        rw [hpt2 i0 hi0', countAt_set_int _ j _ i0 hj]
        have hc := hcount i0 hi0'
        omega
      · rw [htab, hcon, hsum2, List.length_set]
        omega
    · have happ : applyOp s (SysOp.selectBucket j name) = s := by
        simp [applyOp, hj]
      rw [happ]
      exact ⟨hpos, hval, hcount, hsum⟩
  | closeConn j =>
    by_cases hj : j < s.conns.length
    · have hmem : s.conns.get ⟨j, hj⟩ ∈ s.conns := s.conns.get_mem j hj
      have hvj := hval (s.conns.get ⟨j, hj⟩) hmem
      have htab : (applyOp s (SysOp.closeConn j)).table
          = (disassociate_bucket (s.conns.get ⟨j, hj⟩) s.table).2.1 := by
        simp [applyOp, hj]
      have hcon : (applyOp s (SysOp.closeConn j)).conns
          = s.conns.eraseIdx j := by
        simp [applyOp, hj]
      obtain ⟨hc2, hlen2, hpt2, hsum2⟩ :=
        disassociate_bucket_pointwise (s.conns.get ⟨j, hj⟩) s.table
          hvj.1 hvj.2
      refine ⟨?_, ?_, ?_, ?_⟩
      · rw [htab]
        omega
      · intro cc hcc
        rw [hcon] at hcc
        rw [htab]
        have := hval cc (List.mem_of_mem_eraseIdx hcc)
        exact ⟨this.1, by omega⟩
      · intro i0 hi0
        rw [htab] at hi0 ⊢
        rw [hcon]
        have hi0' : i0 < s.table.length := by omega
        rw [hpt2 i0 hi0', countAt_eraseIdx_int _ j i0 hj]
        have hc := hcount i0 hi0'
        omega
      · rw [htab, hcon, hsum2, List.length_eraseIdx]
        simp only [hj, if_true]
        omega
    · have happ : applyOp s (SysOp.closeConn j) = s := by
        simp [applyOp, hj]
      rw [happ]
      exact ⟨hpos, hval, hcount, hsum⟩

theorem applyOps_inv (ops : List SysOp) (s : System) (hinv : SysInv s)
    (hops : ∀ op ∈ ops, ∀ j, op ≠ SysOp.bareDisassociate j) :
    SysInv (applyOps s ops) := by
  induction ops generalizing s with
  | nil => exact hinv
  | cons op rest ih =>
    exact ih (applyOp s op)
      (applyOp_inv s op hinv (hops op (by simp)))
      (fun op' hop' => hops op' (by simp [hop']))

/-- Claim C9 (amended): `disassociate_bucket` always rebinds the
connection to sentinel index 0 with a `NULL` engine pointer after
decrementing the old bucket's count, and `associate_bucket` disassociates
first and then emits exactly one increment, targeting the bucket it binds;
consequently, for every sequence of open/select/close operations — i.e.
as long as no connection keeps running after a bare `disassociate_bucket`
(delete-bucket's self-release) — the counting invariant holds: every
connection is counted in exactly one bucket, and the client counts sum to
the number of live connections. -/
theorem client_count_invariant (ops : List SysOp) (s : System)
    (hinv : SysInv s)
    (hops : ∀ op ∈ ops, ∀ j, op ≠ SysOp.bareDisassociate j) :
    (∀ c : ConnAssoc, ∀ t : List Bucket,
       (disassociate_bucket c t).1
         = { bucketIndex := 0, engine := Option.none }) ∧
    (∀ c : ConnAssoc, ∀ n : String, ∀ t : List Bucket,
       (associate_bucket c n t).2.2.2
         = (disassociate_bucket c t).2.2
             ++ [AssocEvent.incrClients
                   (associate_bucket c n t).2.1.bucketIndex.toNat]) ∧
    SysInv (applyOps s ops) ∧
    sumClients (applyOps s ops).table
      = ((applyOps s ops).conns.length : Int) := by
  refine ⟨fun c t => rfl, ?_, ?_, ?_⟩
  · intro c n t
    match hscan : scanReadyBucket n (disassociate_bucket c t).2.1 with
    | Option.some i2 =>
      simp only [associate_bucket, hscan]
      simp
    | Option.none =>
      simp only [associate_bucket, hscan]
      simp
  · exact applyOps_inv ops s hinv hops
  · exact (applyOps_inv ops s hinv hops).2.2.2

/-- Claim C9 (amended) witness: starting from a one-bucket table with no
connections, opening one connection preserves the invariant: the client
counts sum to 1, the number of live connections. -/
theorem client_count_invariant_witness :
    sumClients (applyOps
        { table := [{ state := BucketState.ready,
                      engine := Option.some 100,
                      btype := BucketType.no_bucket }],
          conns := [] } [SysOp.openConn]).table
      = ((applyOps
        { table := [{ state := BucketState.ready,
                      engine := Option.some 100,
                      btype := BucketType.no_bucket }],
          conns := [] } [SysOp.openConn]).conns.length : Int) := by
  refine (client_count_invariant [SysOp.openConn]
    { table := [{ state := BucketState.ready,
                  engine := Option.some 100,
                  btype := BucketType.no_bucket }],
      conns := [] } ⟨by decide, by simp, ?_, by decide⟩ ?_).2.2.2
  · intro i hi
    have : i = 0 := by simpa using hi
    subst this
    decide
  · intro op hop j
    have : op = SysOp.openConn := by simpa using hop
    subst this
    simp

end Memcached
